import Mathlib

/-!
Shallow embedding of `src/test/example-runner.py` from SPIRV-Interpreter:
the test-discovery, configuration-grouping and execution/verification
harness.  Python strings are modelled as Lean `String`s (operated on via
their character lists), bytes as `List Nat`, the filesystem and the child
process as oracle functions, and an uncaught Python exception (the
`ValueError` that `int(...)` can raise) as `Option.none` threaded through
the classification.
-/

set_option autoImplicit false

namespace SpirvRun

/-- Python `name.find(ch, start)` helper: scan a character list carrying the
absolute index, returning the index of the first occurrence. -/
def findGo (ch : Char) : List Char → Nat → Option Nat
  | [], _ => none
  | c :: rest, idx => if c = ch then some idx else findGo ch rest (idx + 1)

/-- Python `name.find(ch, start)`: index of the first occurrence of `ch` at
position `start` or later, `none` standing for Python's `-1`. -/
def pyFind (cs : List Char) (ch : Char) (start : Nat) : Option Nat :=
  findGo ch (cs.drop start) start

/-- Python `s.startswith(pfx)`. -/
def pyStartsWith (s pfx : String) : Bool :=
  pfx.data.isPrefixOf s.data

/-- Python `s.endswith(sfx)`. -/
def pyEndsWith (s sfx : String) : Bool :=
  sfx.data.isSuffixOf s.data

/-- Decimal value of a digit-character list, most significant first. -/
def digitsVal (cs : List Char) : Nat :=
  cs.foldl (fun a c => a * 10 + (c.toNat - 48)) 0

/-- Stripping of surrounding whitespace, as Python `int` does before
parsing (the ASCII whitespace characters; exotic Unicode whitespace is not
modelled). -/
def stripWs (cs : List Char) : List Char :=
  ((cs.dropWhile Char.isWhitespace).reverse.dropWhile Char.isWhitespace).reverse

/-- The tail of a Python base-10 integer literal after its first digit:
further digits, with single underscores allowed between two digits (Python
rejects leading, trailing, or doubled underscores). -/
def pyDigitsGo : List Char → Nat → Option Nat
  | [], acc => some acc
  | [c], acc => if c.isDigit then some (acc * 10 + (c.toNat - 48)) else none
  | c :: d :: rest, acc =>
    if c.isDigit then pyDigitsGo (d :: rest) (acc * 10 + (c.toNat - 48))
    else if c = '_' then
      (if d.isDigit then pyDigitsGo rest (acc * 10 + (d.toNat - 48)) else none)
    else none

/-- A Python base-10 digit run: non-empty, starting with a digit, with
underscore grouping per `pyDigitsGo`. -/
def pyDigits : List Char → Option Nat
  | [] => none
  | c :: rest => if c.isDigit then pyDigitsGo rest (c.toNat - 48) else none

/-- Sign handling of Python `int` after whitespace stripping: an optional
single `+`/`-` followed by a digit run. -/
def pythonIntAux : List Char → Option Int
  | [] => none
  | c :: rest =>
    if c = '-' then (pyDigits rest).map (fun n => -(n : Int))
    else if c = '+' then (pyDigits rest).map (fun n => (n : Int))
    else (pyDigits (c :: rest)).map (fun n => (n : Int))

/-- Python `int(s)`: surrounding whitespace stripped, then an optional sign
and an underscore-grouped digit run; `none` models the `ValueError` raised
on anything else.  The one remaining unmodelled corner is non-ASCII input
(Unicode decimal digits and exotic Unicode whitespace, which Python
accepts); the ASCII digit forms on which the theorems below rely behave
exactly as in Python, and alphabetic characters make both reject. -/
def pythonInt (s : String) : Option Int :=
  pythonIntAux (stripWs s.data)

/-- Model of `extract_num` from example-runner.py: the text between the end of the
role prefix and the first `.` at or after it (end of string if none); the
empty slice yields `0`, anything else goes through Python `int`, whose
`ValueError` is the `none` outcome. -/
def extract_num (name pfx : String) : Option Int :=
  let pref_len := pfx.length
  let cs := name.data
  let dot := (pyFind cs '.' pref_len).getD cs.length
  if dot = pref_len then some 0
  else pythonInt (String.mk ((cs.drop pref_len).take (dot - pref_len)))

/-- The slice `name[pref_len:dot]` that `extract_num` hands to Python
`int`: the text between the end of the role prefix and the first dot at or
after it. -/
def sliceAfter (name pfx : String) : List Char :=
  let cs := name.data
  let dot := (pyFind cs '.' pfx.length).getD cs.length
  (cs.drop pfx.length).take (dot - pfx.length)

/-- Canonical decimal rendering of a natural number (Python `str(n)`),
written with explicit fuel so that it reduces definitionally. -/
def natStrAux : Nat → Nat → List Char
  | 0, _ => []
  | fuel + 1, n =>
    if n < 10 then [Nat.digitChar n]
    else natStrAux fuel (n / 10) ++ [Nat.digitChar (n % 10)]

/-- Python `str(n)` for a natural number, as a character list. -/
def natStr (n : Nat) : List Char :=
  natStrAux (n + 1) n

/-- Model of `file_types` from example-runner.py: the role prefixes, in priority
order.  All but `"in"` are kinds of output files. -/
def file_types : List String :=
  ["in", "out", "print"]

/-- One directory's `configs` dict: config number ↦ one optional file per
role, in insertion order (mirroring Python dict iteration order). -/
abbrev Configs := List (Int × List (Option String))

/-- Python `if not num in configs: configs[num] = [None] * len(file_types)`. -/
def ensureKey (cfgs : Configs) (num : Int) : Configs :=
  if (cfgs.find? (fun p => p.1 == num)).isSome then cfgs
  else cfgs ++ [(num, [none, none, none])]

/-- Python `configs[num][i]` (flattened: `none` also when the key or the
slot is absent). -/
def getSlot (cfgs : Configs) (num : Int) (i : Nat) : Option String :=
  match cfgs.find? (fun p => p.1 == num) with
  | some p => (p.2.get? i).join
  | none => none

/-- Python `configs[num][i] = v`. -/
def setSlot (cfgs : Configs) (num : Int) (i : Nat) (v : Option String) : Configs :=
  cfgs.map (fun p => if p.1 == num then (p.1, p.2.set i v) else p)

/-- The inner `for i in range(len(file_types))` loop of the classifier, for
one filename, run over the remaining `(index, role-prefix)` pairs.  Result
`none` is the uncaught `ValueError` out of `extract_num`; otherwise the
`Bool` is `true` exactly when the loop exited by `break` (collision found,
`error` set), in which case Python's `for`/`else` clause is skipped. -/
def roleLoop (file : String) : List (Nat × String) → Configs → Option (Configs × Bool)
  | [], cfgs => some (cfgs, false)
  | (i, pfx) :: rest, cfgs =>
    if pyStartsWith file pfx then
      match extract_num file pfx with
      | none => none
      | some num =>
        let cfgs' := ensureKey cfgs num
        match getSlot cfgs' num i with
        | some _ => some (cfgs', true)
        | none => roleLoop file rest (setSlot cfgs' num i (some file))
    else roleLoop file rest cfgs

/-- Classification of a single filename: the role loop, then — only when no
`break` occurred — Python's `for`/`else` clause, which promotes any filename
ending in `.spv` to the `program` candidate. -/
def classifyFile (program : Option String) (cfgs : Configs) (file : String) :
    Option (Option String × Configs × Bool) :=
  match roleLoop file file_types.enum cfgs with
  | none => none
  | some (cfgs', true) => some (program, cfgs', true)
  | some (cfgs', false) =>
    some (if pyEndsWith file ".spv" then some file else program, cfgs', false)

/-- The outer `for file in files` loop: `if error: break` aborts the
remaining files of the directory as soon as one classification set the
error flag. -/
def classifyFiles : List String → Option String → Configs →
    Option (Option String × Configs × Bool)
  | [], program, cfgs => some (program, cfgs, false)
  | file :: rest, program, cfgs =>
    match classifyFile program cfgs file with
    | none => none
    | some (program', cfgs', true) => some (program', cfgs', true)
    | some (program', cfgs', false) => classifyFiles rest program' cfgs'

/-- Grouping of one directory's file list, from the initial
`program = None; configs = dict(); error = False` state. -/
def groupFiles (files : List String) : Option (Option String × Configs × Bool) :=
  classifyFiles files none []

/-- Result of one child-process invocation: exit code and captured
standard-output bytes. -/
structure ExecResult where
  returncode : Int
  stdout : List Nat
  deriving DecidableEq

/-- The world the harness runs against: the interpreter as an oracle from
argument vector to `ExecResult`, and the directory's files as an oracle from
filename to byte contents. -/
structure Env where
  run : List String → ExecResult
  fs : String → List Nat

/-- Model of `check_file` from example-runner.py: vacuously true with no `print`
file, otherwise byte-for-byte equality of the file's contents with the
captured standard output. -/
def check_file (fs : String → List Nat) (out_file : Option String)
    (stdout : List Nat) : Bool :=
  match out_file with
  | none => true
  | some f => fs f == stdout

/-- One step of the `for i, file in enumerate(files)` command-building loop:
accumulates `(cmd, output, out_file)`; role 0 (`in`) adds `-i file`, role 1
(`out`) adds `-c file` and marks output, role 2 (`print`) only records the
host-comparison file and marks output. -/
def buildStep (acc : List String × Bool × Option String) (p : Nat × Option String) :
    List String × Bool × Option String :=
  match p.2 with
  | none => acc
  | some file =>
    match p.1 with
    | 0 => (acc.1 ++ ["-i", file], acc.2.1, acc.2.2)
    | 1 => (acc.1 ++ ["-c", file], true, acc.2.2)
    | 2 => (acc.1, true, some file)
    | _ => acc

/-- Command building for one run configuration: starts from
`cmd = [interp_path, program]`, `output = False`, `out_file = None` and folds
`buildStep` over the enumerated role slots. -/
def buildCmd (interp program : String) (slots : List (Option String)) :
    List String × Bool × Option String :=
  slots.enum.foldl buildStep ([interp, program], false, none)

/-- Execution and verification of one run configuration: skipped (`none`)
unless some role flagged `output`; otherwise `some failed`, where the run
fails exactly when the exit code is non-zero or `check_file` rejects the
captured standard output. -/
def configOutcome (env : Env) (interp program : String)
    (slots : List (Option String)) : Option Bool :=
  let b := buildCmd interp program slots
  if b.2.1 then
    let res := env.run b.1
    some (res.returncode != 0 || !check_file env.fs b.2.2 res.stdout)
  else none

/-- Folding one configuration into the `(total, fails)` tally: a skipped
configuration leaves the counters alone; an executed one increments `total`,
and `fails` as well when it failed. -/
def tallyStep (env : Env) (interp program : String) (acc : Nat × Nat)
    (entry : Int × List (Option String)) : Nat × Nat :=
  match configOutcome env interp program entry.2 with
  | none => acc
  | some failed => (acc.1 + 1, if failed then acc.2 + 1 else acc.2)

/-- Per-directory processing: classification, then — only when a program
file was found — one `tallyStep` per collected configuration, in insertion
order.  `none` is the crash propagated out of classification. -/
def processDir (env : Env) (interp : String) (files : List String) :
    Option (Nat × Nat) :=
  match classifyFiles files none [] with
  | none => none
  | some (program, cfgs, _) =>
    match program with
    | none => some (0, 0)
    | some prog => some (cfgs.foldl (tallyStep env interp prog) (0, 0))

/-- The whole walk: directories visited in sequence, each contributing its
`(total, fails)` deltas to the process-wide tally. -/
def runAll (env : Env) (interp : String) (dirs : List (List String)) :
    Option (Nat × Nat) :=
  dirs.foldl
    (fun acc files =>
      match acc, processDir env interp files with
      | some t, some d => some (t.1 + d.1, t.2 + d.2)
      | _, _ => none)
    (some (0, 0))

/-- The final report of example-runner.py, abstracting the printed line and
the process exit code. -/
inductive Report where
  | noTests (exitCode : Nat)
  | tally (label : String) (passed total exitCode : Nat)
  deriving DecidableEq

/-- Lines 100–109 of example-runner.py: `total == 0` prints "No tests run!"
and exits 1; otherwise the label is `PASS` when `fails == 0` and `FAIL`
otherwise, the summary shows `total - fails` out of `total`, and the process
exit code is `fails` itself. -/
def finalReport (total fails : Nat) : Report :=
  if total = 0 then Report.noTests 1
  else Report.tally (if fails = 0 then "PASS" else "FAIL") (total - fails) total fails

/-- The flag-and-file fragment a role contributes to the command line. -/
def optFlag (flag : String) : Option String → List String
  | none => []
  | some f => [flag, f]

/-- A trivial world used to instantiate theorems at concrete inputs: the
child process always exits 0 with empty output, every file is empty. -/
def env0 : Env :=
  ⟨fun _ => ⟨0, []⟩, fun _ => []⟩

/-! ### Helper lemmas -/

theorem string_data_append (s t : String) : (s ++ t).data = s.data ++ t.data :=
  rfl

theorem string_length_data (s : String) : s.length = s.data.length :=
  rfl

theorem buildCmd_cons3 (interp prog : String) (a b c : Option String) :
    buildCmd interp prog [a, b, c] =
      ([interp, prog] ++ optFlag "-i" a ++ optFlag "-c" b, b.isSome || c.isSome, c) := by
  cases a <;> cases b <;> cases c <;> rfl

theorem configOutcome_cons3 (env : Env) (interp prog : String) (a b c : Option String) :
    configOutcome env interp prog [a, b, c] =
      if b.isSome || c.isSome then
        some ((env.run ([interp, prog] ++ optFlag "-i" a ++ optFlag "-c" b)).returncode != 0 ||
          !check_file env.fs c
            (env.run ([interp, prog] ++ optFlag "-i" a ++ optFlag "-c" b)).stdout)
      else none := by
  simp only [configOutcome, buildCmd_cons3]

theorem findGo_before (ch : Char) (xs ys : List Char) (i : Nat)
    (h : ∀ x ∈ xs, x ≠ ch) :
    findGo ch (xs ++ ch :: ys) i = some (i + xs.length) := by
  induction xs generalizing i with
  | nil => simp [findGo]
  | cons x xs ih =>
    have hx : x ≠ ch := h x (by simp)
    have hrest : ∀ y ∈ xs, y ≠ ch := fun y hy => h y (by simp [hy])
    simp only [List.cons_append, findGo, if_neg hx]
    rw [List.append_eq, ih (i + 1) hrest]
    congr 1
    simp only [List.length_cons]
    omega

theorem digitChar_spec :
    ∀ d : Nat, d < 10 →
      (Nat.digitChar d).isDigit = true ∧ (Nat.digitChar d).toNat - 48 = d ∧
      Nat.digitChar d ≠ '.' ∧ Nat.digitChar d ≠ '-' ∧ Nat.digitChar d ≠ '+' := by
  decide

theorem natStrAux_spec :
    ∀ (fuel n : Nat), n < fuel →
      natStrAux fuel n ≠ [] ∧ (natStrAux fuel n).all Char.isDigit = true ∧
      ∀ a : Nat, (natStrAux fuel n).foldl (fun a c => a * 10 + (c.toNat - 48)) a
        = a * 10 ^ (natStrAux fuel n).length + n := by
  intro fuel
  induction fuel with
  | zero => intro n hn; omega
  | succ fuel ih =>
    intro n hn
    by_cases h10 : n < 10
    · refine ⟨by simp [natStrAux, h10], ?_, ?_⟩
      · simp [natStrAux, h10, (digitChar_spec n h10).1]
      · intro a
        simp [natStrAux, h10, List.foldl, (digitChar_spec n h10).2.1]
    · have hdiv : n / 10 < fuel := by
        have h1 : n / 10 < n := Nat.div_lt_self (by omega) (by omega)
        omega
      obtain ⟨ih1, ih2, ih3⟩ := ih (n / 10) hdiv
      have hmod : n % 10 < 10 := Nat.mod_lt _ (by omega)
      refine ⟨by simp [natStrAux, h10], ?_, ?_⟩
      · simp [natStrAux, h10, List.all_append, ih2, (digitChar_spec _ hmod).1]
      · intro a
        simp only [natStrAux, if_neg h10, List.foldl_append, ih3, List.foldl,
          (digitChar_spec _ hmod).2.1, List.length_append, List.length_cons,
          List.length_nil]
        have hexp : 10 ^ ((natStrAux fuel (n / 10)).length + (0 + 1)) =
            10 ^ (natStrAux fuel (n / 10)).length * 10 := by
          rw [Nat.zero_add, pow_succ]
        rw [hexp]
        have hring : (a * 10 ^ (natStrAux fuel (n / 10)).length + n / 10) * 10 + n % 10 =
            a * (10 ^ (natStrAux fuel (n / 10)).length * 10) + (10 * (n / 10) + n % 10) := by
          ring
        rw [hring, Nat.div_add_mod]

theorem natStr_nonempty (n : Nat) : natStr n ≠ [] :=
  (natStrAux_spec (n + 1) n (by omega)).1

theorem natStr_digits (n : Nat) : (natStr n).all Char.isDigit = true :=
  (natStrAux_spec (n + 1) n (by omega)).2.1

theorem digitsVal_natStr (n : Nat) : digitsVal (natStr n) = n := by
  have h := (natStrAux_spec (n + 1) n (by omega)).2.2 0
  simpa [digitsVal, natStr] using h

theorem natStr_no_dot (n : Nat) : ∀ x ∈ natStr n, x ≠ '.' := by
  intro x hx he
  have hall := natStr_digits n
  rw [List.all_eq_true] at hall
  have := hall x hx
  rw [he] at this
  exact absurd this (by decide)

theorem digit_not_ws (c : Char) (h : c.isDigit = true) : c.isWhitespace = false := by
  cases hw : c.isWhitespace with
  | false => rfl
  | true =>
    exfalso
    simp only [Char.isWhitespace, Bool.or_eq_true, decide_eq_true_eq] at hw
    rcases hw with ((h' | h') | h') | h' <;> (subst h'; exact absurd h (by decide))

theorem not_digit_of_alpha (c : Char) (ha : c.isAlpha = true) : c.isDigit = false := by
  cases hd : c.isDigit with
  | false => rfl
  | true =>
    exfalso
    simp only [Char.isDigit, Bool.and_eq_true, decide_eq_true_eq] at hd
    simp only [Char.isAlpha, Char.isUpper, Char.isLower, Bool.or_eq_true, Bool.and_eq_true,
      decide_eq_true_eq] at ha
    obtain ⟨hd1, hd2⟩ := hd
    have d1 : (48 : Nat) ≤ c.val.val.val := hd1
    have d2 : c.val.val.val ≤ (57 : Nat) := hd2
    rcases ha with ⟨h1, h2⟩ | ⟨h1, h2⟩
    · have a1 : (65 : Nat) ≤ c.val.val.val := h1
      omega
    · have a1 : (97 : Nat) ≤ c.val.val.val := h1
      omega

theorem alpha_not_ws (c : Char) (ha : c.isAlpha = true) : c.isWhitespace = false := by
  cases hw : c.isWhitespace with
  | false => rfl
  | true =>
    exfalso
    simp only [Char.isWhitespace, Bool.or_eq_true, decide_eq_true_eq] at hw
    rcases hw with ((h' | h') | h') | h' <;> (subst h'; exact absurd ha (by decide))

theorem dropWhile_ws_of_digits (cs : List Char) (hd : cs.all Char.isDigit = true) :
    cs.dropWhile Char.isWhitespace = cs := by
  cases cs with
  | nil => rfl
  | cons c rest =>
    have hc : c.isDigit = true := by
      rw [List.all_cons] at hd
      exact (Bool.and_eq_true_iff.mp hd).1
    rw [List.dropWhile_cons, digit_not_ws c hc]
    simp

theorem stripWs_of_digits (cs : List Char) (hd : cs.all Char.isDigit = true) :
    stripWs cs = cs := by
  unfold stripWs
  rw [dropWhile_ws_of_digits cs hd,
    dropWhile_ws_of_digits cs.reverse (by rw [List.all_reverse]; exact hd),
    List.reverse_reverse]

theorem pyDigitsGo_digits :
    ∀ (l : List Char), l.all Char.isDigit = true → ∀ acc : Nat,
      pyDigitsGo l acc = some (l.foldl (fun a c => a * 10 + (c.toNat - 48)) acc) := by
  intro l
  induction l with
  | nil => intro _ acc; rfl
  | cons c rest ih =>
    intro hall acc
    have hc : c.isDigit = true := by
      rw [List.all_cons] at hall
      exact (Bool.and_eq_true_iff.mp hall).1
    have hrest : rest.all Char.isDigit = true := by
      rw [List.all_cons] at hall
      exact (Bool.and_eq_true_iff.mp hall).2
    cases rest with
    | nil => simp [pyDigitsGo, hc]
    | cons d rest' =>
      rw [show pyDigitsGo (c :: d :: rest') acc
          = if c.isDigit then pyDigitsGo (d :: rest') (acc * 10 + (c.toNat - 48))
            else if c = '_' then
              (if d.isDigit then pyDigitsGo rest' (acc * 10 + (d.toNat - 48)) else none)
            else none from rfl]
      rw [if_pos hc, ih hrest]
      rfl

theorem pyDigits_digits (cs : List Char) (hne : cs ≠ [])
    (hd : cs.all Char.isDigit = true) :
    pyDigits cs = some (digitsVal cs) := by
  cases cs with
  | nil => exact absurd rfl hne
  | cons c rest =>
    have hc : c.isDigit = true := by
      rw [List.all_cons] at hd
      exact (Bool.and_eq_true_iff.mp hd).1
    have hrest : rest.all Char.isDigit = true := by
      rw [List.all_cons] at hd
      exact (Bool.and_eq_true_iff.mp hd).2
    rw [show pyDigits (c :: rest)
        = if c.isDigit then pyDigitsGo rest (c.toNat - 48) else none from rfl]
    rw [if_pos hc, pyDigitsGo_digits rest hrest]
    simp [digitsVal]

theorem pythonInt_digits (cs : List Char) (hne : cs ≠ [])
    (hd : cs.all Char.isDigit = true) :
    pythonInt (String.mk cs) = some (digitsVal cs : Int) := by
  cases cs with
  | nil => exact absurd rfl hne
  | cons c rest =>
    have hc : c.isDigit = true := by
      rw [List.all_cons] at hd
      exact (Bool.and_eq_true_iff.mp hd).1
    have h1 : ¬(c = '-') := by
      intro h; rw [h] at hc; exact absurd hc (by decide)
    have h2 : ¬(c = '+') := by
      intro h; rw [h] at hc; exact absurd hc (by decide)
    have hstrip : stripWs (String.mk (c :: rest)).data = c :: rest :=
      stripWs_of_digits (c :: rest) hd
    rw [pythonInt, hstrip, pythonIntAux, if_neg h1, if_neg h2,
      pyDigits_digits (c :: rest) (List.cons_ne_nil c rest) hd]
    rfl

theorem mem_dropWhile_of_not (p : Char → Bool) (ch : Char) (hch : p ch = false) :
    ∀ l : List Char, ch ∈ l → ch ∈ l.dropWhile p := by
  intro l
  induction l with
  | nil => intro h; exact absurd h (by simp)
  | cons a l ih =>
    intro hm
    rw [List.dropWhile_cons]
    by_cases hp : p a = true
    · rw [if_pos hp]
      rcases List.mem_cons.mp hm with h | h
      · subst h
        rw [hch] at hp
        exact absurd hp (by decide)
      · exact ih h
    · rw [if_neg hp]
      exact hm

theorem mem_stripWs (ch : Char) (cs : List Char) (hm : ch ∈ cs)
    (hws : ch.isWhitespace = false) : ch ∈ stripWs cs := by
  unfold stripWs
  rw [List.mem_reverse]
  refine mem_dropWhile_of_not _ ch hws _ ?_
  rw [List.mem_reverse]
  exact mem_dropWhile_of_not _ ch hws _ hm

theorem pyDigitsGo_alpha (ch : Char) (ha : ch.isAlpha = true) :
    ∀ (n : Nat) (l : List Char), l.length ≤ n → ch ∈ l → ∀ acc : Nat,
      pyDigitsGo l acc = none := by
  intro n
  induction n with
  | zero =>
    intro l hl hm _
    have hnil : l = [] := List.length_eq_zero.mp (Nat.le_zero.mp hl)
    subst hnil
    exact absurd hm (by simp)
  | succ n ih =>
    intro l hl hm acc
    rcases l with _ | ⟨c, rest0⟩
    · exact absurd hm (by simp)
    rcases rest0 with _ | ⟨d, rest⟩
    · have hcc : ch = c := by simpa using hm
      subst hcc
      rw [show pyDigitsGo [ch] acc
          = if ch.isDigit then some (acc * 10 + (ch.toNat - 48)) else none from rfl]
      rw [not_digit_of_alpha ch ha]
      simp
    · rw [show pyDigitsGo (c :: d :: rest) acc
          = if c.isDigit then pyDigitsGo (d :: rest) (acc * 10 + (c.toNat - 48))
            else if c = '_' then
              (if d.isDigit then pyDigitsGo rest (acc * 10 + (d.toNat - 48)) else none)
            else none from rfl]
      by_cases hc : c.isDigit = true
      · rw [if_pos hc]
        have hne : ch ≠ c := by
          intro he
          rw [he] at ha
          rw [not_digit_of_alpha c ha] at hc
          exact absurd hc (by decide)
        have hm' : ch ∈ d :: rest := by
          rcases List.mem_cons.mp hm with h | h
          · exact absurd h hne
          · exact h
        have hl' : (d :: rest).length ≤ n := by
          simp only [List.length_cons] at hl ⊢
          omega
        exact ih (d :: rest) hl' hm' _
      · rw [if_neg hc]
        by_cases hu : c = '_'
        · rw [if_pos hu]
          by_cases hdd : d.isDigit = true
          · rw [if_pos hdd]
            have hne1 : ch ≠ c := by
              intro he
              rw [he, hu] at ha
              exact absurd ha (by decide)
            have hne2 : ch ≠ d := by
              intro he
              rw [he] at ha
              rw [not_digit_of_alpha d ha] at hdd
              exact absurd hdd (by decide)
            have hm' : ch ∈ rest := by
              rcases List.mem_cons.mp hm with h | h
              · exact absurd h hne1
              rcases List.mem_cons.mp h with h2 | h2
              · exact absurd h2 hne2
              · exact h2
            have hl' : rest.length ≤ n := by
              simp only [List.length_cons] at hl
              omega
            exact ih rest hl' hm' _
          · rw [if_neg hdd]
        · rw [if_neg hu]

theorem pyDigits_alpha (ch : Char) (ha : ch.isAlpha = true)
    (l : List Char) (hm : ch ∈ l) : pyDigits l = none := by
  rcases l with _ | ⟨c, rest⟩
  · exact absurd hm (by simp)
  rw [show pyDigits (c :: rest)
      = if c.isDigit then pyDigitsGo rest (c.toNat - 48) else none from rfl]
  by_cases hc : c.isDigit = true
  · rw [if_pos hc]
    have hne : ch ≠ c := by
      intro he
      rw [he] at ha
      rw [not_digit_of_alpha c ha] at hc
      exact absurd hc (by decide)
    have hm' : ch ∈ rest := by
      rcases List.mem_cons.mp hm with h | h
      · exact absurd h hne
      · exact h
    exact pyDigitsGo_alpha ch ha rest.length rest (Nat.le_refl _) hm' _
  · rw [if_neg hc]

theorem pythonInt_alpha (cs : List Char) (ch : Char) (hm : ch ∈ cs)
    (ha : ch.isAlpha = true) : pythonInt (String.mk cs) = none := by
  have hm0 : ch ∈ stripWs (String.mk cs).data := mem_stripWs ch cs hm (alpha_not_ws ch ha)
  rw [pythonInt]
  cases hstr : stripWs (String.mk cs).data with
  | nil => rfl
  | cons c rest =>
    rw [hstr] at hm0
    rw [pythonIntAux]
    by_cases h1 : c = '-'
    · rw [if_pos h1]
      have hne : ch ≠ c := by
        intro he
        rw [he, h1] at ha
        exact absurd ha (by decide)
      have hm' : ch ∈ rest := by
        rcases List.mem_cons.mp hm0 with h | h
        · exact absurd h hne
        · exact h
      rw [pyDigits_alpha ch ha rest hm']
      rfl
    · rw [if_neg h1]
      by_cases h2 : c = '+'
      · rw [if_pos h2]
        have hne : ch ≠ c := by
          intro he
          rw [he, h2] at ha
          exact absurd ha (by decide)
        have hm' : ch ∈ rest := by
          rcases List.mem_cons.mp hm0 with h | h
          · exact absurd h hne
          · exact h
        rw [pyDigits_alpha ch ha rest hm']
        rfl
      · rw [if_neg h2]
        rw [pyDigits_alpha ch ha (c :: rest) hm0]
        rfl

theorem extract_num_eq (name pfx : String) :
    extract_num name pfx =
      if (pyFind name.data '.' pfx.length).getD name.data.length = pfx.length then some 0
      else pythonInt (String.mk (sliceAfter name pfx)) :=
  rfl

theorem extract_num_none_of_alpha (name pfx : String) (ch : Char)
    (hm : ch ∈ sliceAfter name pfx) (ha : ch.isAlpha = true) :
    extract_num name pfx = none := by
  rw [extract_num_eq]
  by_cases hd : (pyFind name.data '.' pfx.length).getD name.data.length = pfx.length
  · exfalso
    have hempty : sliceAfter name pfx = [] := by
      show (name.data.drop pfx.length).take
        ((pyFind name.data '.' pfx.length).getD name.data.length - pfx.length) = []
      rw [hd, Nat.sub_self, List.take_zero]
    rw [hempty] at hm
    exact absurd hm (by simp)
  · rw [if_neg hd]
    exact pythonInt_alpha _ ch hm ha

theorem not_startsWith_in_of_out (f : String) (h : pyStartsWith f "out" = true) :
    pyStartsWith f "in" = false := by
  obtain ⟨t, ht⟩ := List.isPrefixOf_iff_prefix.mp h
  unfold pyStartsWith
  rw [← ht]
  rfl

theorem not_startsWith_in_of_print (f : String) (h : pyStartsWith f "print" = true) :
    pyStartsWith f "in" = false := by
  obtain ⟨t, ht⟩ := List.isPrefixOf_iff_prefix.mp h
  unfold pyStartsWith
  rw [← ht]
  rfl

theorem not_startsWith_out_of_print (f : String) (h : pyStartsWith f "print" = true) :
    pyStartsWith f "out" = false := by
  obtain ⟨t, ht⟩ := List.isPrefixOf_iff_prefix.mp h
  unfold pyStartsWith
  rw [← ht]
  rfl

theorem extract_num_concat (pfx : String) (n : Nat) (ext : String) :
    extract_num (pfx ++ String.mk (natStr n) ++ "." ++ ext) pfx = some (n : Int) := by
  have hdata : (pfx ++ String.mk (natStr n) ++ "." ++ ext).data
      = pfx.data ++ (natStr n ++ '.' :: ext.data) := by
    simp [string_data_append, String.mk]
  have hfind : pyFind (pfx ++ String.mk (natStr n) ++ "." ++ ext).data '.' pfx.length
      = some (pfx.length + (natStr n).length) := by
    rw [hdata]
    unfold pyFind
    rw [string_length_data, List.drop_left]
    exact findGo_before '.' (natStr n) ext.data pfx.data.length (natStr_no_dot n)
  have hlen : (natStr n).length ≠ 0 := by
    intro h
    exact natStr_nonempty n (List.length_eq_zero.mp h)
  simp only [extract_num, hfind, Option.getD_some]
  rw [if_neg (by omega)]
  rw [hdata, string_length_data, List.drop_left,
    Nat.add_sub_cancel_left pfx.data.length (natStr n).length, List.take_left]
  rw [pythonInt_digits (natStr n) (natStr_nonempty n) (natStr_digits n), digitsVal_natStr]

theorem extract_num_nodigits (pfx ext : String) :
    extract_num (pfx ++ "." ++ ext) pfx = some 0 := by
  have hdata : (pfx ++ "." ++ ext).data = pfx.data ++ '.' :: ext.data := by
    simp [string_data_append]
  have hfind : pyFind (pfx ++ "." ++ ext).data '.' pfx.length = some pfx.length := by
    rw [hdata]
    unfold pyFind
    rw [string_length_data, List.drop_left]
    simp [findGo]
  simp only [extract_num, hfind, Option.getD_some]
  simp

theorem file_types_enum : file_types.enum = [(0, "in"), (1, "out"), (2, "print")] :=
  rfl

theorem classifyFile_program (program : Option String) (cfgs : Configs) (f : String)
    (p' : Option String) (c' : Configs) (e : Bool)
    (h : classifyFile program cfgs f = some (p', c', e)) :
    p' = if e = false ∧ pyEndsWith f ".spv" = true then some f else program := by
  unfold classifyFile at h
  cases hr : roleLoop f file_types.enum cfgs with
  | none => rw [hr] at h; exact Option.noConfusion h
  | some r =>
    obtain ⟨cr, er⟩ := r
    rw [hr] at h
    cases er with
    | true =>
      simp only [Option.some.injEq, Prod.mk.injEq] at h
      obtain ⟨h1, _, h3⟩ := h
      rw [← h3]
      simp [h1]
    | false =>
      simp only [Option.some.injEq, Prod.mk.injEq] at h
      obtain ⟨h1, _, h3⟩ := h
      rw [← h3, ← h1]
      by_cases hq : pyEndsWith f ".spv" = true <;> simp [hq]

/-! ### Claim theorems -/

/-- Claim C1: an executed run configuration fails exactly when the child
process's exit code is non-zero or a print-role file is present whose bytes
differ from the captured standard output; with no print file (in particular
when only the compare role is present) the exit code alone decides. -/
theorem c1_pass_fail (env : Env) (interp prog : String) (a b c : Option String)
    (h : b.isSome = true ∨ c.isSome = true) :
    ∃ failed : Bool,
      configOutcome env interp prog [a, b, c] = some failed ∧
      (failed = true ↔
        (env.run ([interp, prog] ++ optFlag "-i" a ++ optFlag "-c" b)).returncode ≠ 0 ∨
        ∃ f, c = some f ∧
          env.fs f ≠ (env.run ([interp, prog] ++ optFlag "-i" a ++ optFlag "-c" b)).stdout) ∧
      (c = none → (failed = true ↔
        (env.run ([interp, prog] ++ optFlag "-i" a ++ optFlag "-c" b)).returncode ≠ 0)) := by
  have hout : (b.isSome || c.isSome) = true := by
    rcases h with h | h <;> simp [h]
  refine ⟨(env.run ([interp, prog] ++ optFlag "-i" a ++ optFlag "-c" b)).returncode != 0 ||
    !check_file env.fs c (env.run ([interp, prog] ++ optFlag "-i" a ++ optFlag "-c" b)).stdout,
    ?_, ?_, ?_⟩
  · rw [configOutcome_cons3, hout]
    simp
  · cases c with
    | none => simp [check_file, bne_iff_ne]
    | some f => simp [check_file, bne_iff_ne]
  · intro hc
    rw [hc]
    simp [check_file, bne_iff_ne]

/-- Witness for C1 at a configuration holding only a compare-role file,
against the trivial world `env0`. -/
theorem c1_pass_fail_witness :
    ((some "out0.txt" : Option String).isSome = true ∨
      (none : Option String).isSome = true) ∧
    ∃ failed : Bool,
      configOutcome env0 "interp" "prog.spv" [none, some "out0.txt", none] = some failed ∧
      (failed = true ↔
        (env0.run (["interp", "prog.spv"] ++ optFlag "-i" none ++
          optFlag "-c" (some "out0.txt"))).returncode ≠ 0 ∨
        ∃ f, (none : Option String) = some f ∧
          env0.fs f ≠ (env0.run (["interp", "prog.spv"] ++ optFlag "-i" none ++
            optFlag "-c" (some "out0.txt"))).stdout) ∧
      ((none : Option String) = none → (failed = true ↔
        (env0.run (["interp", "prog.spv"] ++ optFlag "-i" none ++
          optFlag "-c" (some "out0.txt"))).returncode ≠ 0)) :=
  ⟨Or.inl rfl, c1_pass_fail env0 "interp" "prog.spv" none (some "out0.txt") none (Or.inl rfl)⟩

/-- Claim C2: for any role prefix `p`, number `n` and extension `ext`, the
config number extracted from `p ++ str n ++ "." ++ ext` is `n`, and from
`p ++ "." ++ ext` it is `0`. -/
theorem c2_extract_num (pfx : String) (n : Nat) (ext : String)
    (_hp : pfx ∈ file_types) :
    extract_num (pfx ++ String.mk (natStr n) ++ "." ++ ext) pfx = some (n : Int) ∧
    extract_num (pfx ++ "." ++ ext) pfx = some 0 :=
  ⟨extract_num_concat pfx n ext, extract_num_nodigits pfx ext⟩

/-- Witness for C2 at prefix `in`, number 7, extension `json`. -/
theorem c2_extract_num_witness :
    ("in" ∈ file_types) ∧
    extract_num ("in" ++ String.mk (natStr 7) ++ "." ++ "json") "in" = some (7 : Int) ∧
    extract_num ("in" ++ "." ++ "json") "in" = some 0 :=
  ⟨by decide, c2_extract_num "in" 7 "json" (by decide)⟩

/-- Claim C6: a directory whose classification found no program file
contributes zero executions and leaves the `(total, fails)` tally at
`(0, 0)`, however many run-configuration files it holds. -/
theorem c6_no_program_no_tests (env : Env) (interp : String) (files : List String)
    (cfgs : Configs) (e : Bool)
    (h : classifyFiles files none [] = some (none, cfgs, e)) :
    processDir env interp files = some (0, 0) := by
  simp [processDir, h]

/-- Witness for C6 at a directory holding one compare-role file and no
program file. -/
theorem c6_no_program_no_tests_witness :
    classifyFiles ["out.txt"] none [] =
      some (none, [(0, [none, some "out.txt", none])], false) ∧
    processDir env0 "interp" ["out.txt"] = some (0, 0) :=
  ⟨by decide, c6_no_program_no_tests env0 "interp" ["out.txt"]
    [(0, [none, some "out.txt", none])] false (by decide)⟩

/-- Claim C7: a run configuration holding at most an input file is skipped
outright — no child process is run (`configOutcome` is `none`) and the
tally, `total` included, is untouched. -/
theorem c7_input_only_skipped (env : Env) (interp prog : String) (a : Option String) :
    configOutcome env interp prog [a, none, none] = none ∧
    ∀ (acc : Nat × Nat) (num : Int),
      tallyStep env interp prog acc (num, [a, none, none]) = acc := by
  have h1 : configOutcome env interp prog [a, none, none] = none := by
    rw [configOutcome_cons3]
    simp
  exact ⟨h1, fun acc num => by simp [tallyStep, h1]⟩

/-- Claim C8: the built argument vector is the program file first, then
`-i` with the input file if present, then `-c` with the compare file if
present, in that fixed order; the print-role file contributes no flag and is
recorded only as the host-side comparison file. -/
theorem c8_command_shape (interp prog : String) (a b c : Option String) :
    (buildCmd interp prog [a, b, c]).1 =
      [interp, prog] ++ optFlag "-i" a ++ optFlag "-c" b ∧
    (buildCmd interp prog [a, b, c]).2.2 = c := by
  rw [buildCmd_cons3]
  exact ⟨rfl, rfl⟩

/-- Claim C9: with `total = 0` the harness reports that no tests ran and
exits non-zero (code 1); otherwise it prints `PASS` or `FAIL` with
`total - fails` out of `total`, and the exit code is the fail count. -/
theorem c9_final_report (total fails : Nat) :
    (total = 0 → finalReport total fails = Report.noTests 1 ∧ (1 : Nat) ≠ 0) ∧
    (total ≠ 0 → finalReport total fails =
      Report.tally (if fails = 0 then "PASS" else "FAIL") (total - fails) total fails) := by
  constructor
  · intro h
    exact ⟨by simp [finalReport, h], by omega⟩
  · intro h
    simp [finalReport, h]

/-- Witness for C9 at `total = 0, fails = 3` and at `total = 5, fails = 2`. -/
theorem c9_final_report_witness :
    (finalReport 0 3 = Report.noTests 1 ∧ (1 : Nat) ≠ 0) ∧
    finalReport 5 2 =
      Report.tally (if (2 : Nat) = 0 then "PASS" else "FAIL") (5 - 2) 5 2 :=
  ⟨(c9_final_report 0 3).1 rfl, (c9_final_report 5 2).2 (by decide)⟩

/-- Counterexample to C3: `invalid.spv` starts with the role prefix `in`,
and the text `valid` between the prefix and the dot is non-integer; the
grouper then crashes (uncaught `ValueError`, modelled `none`) instead of
treating the filename as a non-match, and the filename does not fall through
to being the program-file candidate. -/
theorem c3_counterexample :
    pyStartsWith "invalid.spv" "in" = true ∧
    extract_num "invalid.spv" "in" = none ∧
    groupFiles ["invalid.spv"] = none ∧
    groupFiles ["invalid.spv"] ≠ some (some "invalid.spv", [], false) := by
  refine ⟨by decide, by decide, by decide, ?_⟩
  decide

/-- Claim C3 as amended: a filename that starts with any of the role
prefixes (`in`, `out`, `print`) and whose text between that prefix and the
first dot contains an alphabetic character — non-integer text such as
`valid` in `invalid.spv` or `put` in `output.txt`, on which Python `int`
raises a `ValueError` — makes `extract_num` fail, so classification of that
file crashes rather than treating it as a non-match; the file never reaches
the program-file fallthrough. -/
theorem c3_nonint_suffix_crashes (program : Option String) (cfgs : Configs)
    (f pfx : String) (hp : pfx ∈ file_types)
    (h1 : pyStartsWith f pfx = true)
    (h2 : ∃ ch ∈ sliceAfter f pfx, ch.isAlpha = true) :
    extract_num f pfx = none ∧ classifyFile program cfgs f = none := by
  obtain ⟨ch, hm, ha⟩ := h2
  have hx : extract_num f pfx = none := extract_num_none_of_alpha f pfx ch hm ha
  refine ⟨hx, ?_⟩
  have hp3 : pfx = "in" ∨ pfx = "out" ∨ pfx = "print" := by
    simpa [file_types] using hp
  unfold classifyFile
  rw [file_types_enum]
  rcases hp3 with h | h | h
  · subst h
    simp only [roleLoop, if_pos h1, hx]
  · subst h
    have hn1 : pyStartsWith f "in" = false := not_startsWith_in_of_out f h1
    simp [roleLoop, hn1, h1, hx]
  · subst h
    have hn1 : pyStartsWith f "in" = false := not_startsWith_in_of_print f h1
    have hn2 : pyStartsWith f "out" = false := not_startsWith_out_of_print f h1
    simp [roleLoop, hn1, hn2, h1, hx]

/-- Witness for the amended C3 at the filenames `invalid.spv` (role prefix
`in`) and `output.txt` (role prefix `out`). -/
theorem c3_nonint_suffix_crashes_witness :
    ("in" ∈ file_types ∧ pyStartsWith "invalid.spv" "in" = true ∧
      (∃ ch ∈ sliceAfter "invalid.spv" "in", ch.isAlpha = true) ∧
      extract_num "invalid.spv" "in" = none ∧
      classifyFile none [] "invalid.spv" = none) ∧
    ("out" ∈ file_types ∧ pyStartsWith "output.txt" "out" = true ∧
      (∃ ch ∈ sliceAfter "output.txt" "out", ch.isAlpha = true) ∧
      extract_num "output.txt" "out" = none ∧
      classifyFile none [] "output.txt" = none) :=
  ⟨⟨by decide, by decide, by decide,
    c3_nonint_suffix_crashes none [] "invalid.spv" "in" (by decide) (by decide) (by decide)⟩,
   ⟨by decide, by decide, by decide,
    c3_nonint_suffix_crashes none [] "output.txt" "out" (by decide) (by decide) (by decide)⟩⟩

/-- Counterexample to C4: `in.spv` matches the role prefix `in` (it fills
the config-0 input slot) and nevertheless also becomes the program-file
candidate, because the Python `for`/`else` fallthrough runs whenever the
role loop finishes without `break`. -/
theorem c4_counterexample :
    pyStartsWith "in.spv" "in" = true ∧
    groupFiles ["in.spv"] =
      some (some "in.spv", [(0, [some "in.spv", none, none])], false) := by
  exact ⟨by decide, by decide⟩

/-- Claim C4 as amended: a filename becomes the program-file candidate if
and only if it ends with `.spv` and its classification finished without a
collision `break`; matching a role prefix does not exclude it — such a file
is claimed by the role and still promoted to program candidate. -/
theorem c4_program_candidate (program : Option String) (cfgs : Configs)
    (f : String) (p' : Option String) (c' : Configs) (e : Bool)
    (h : classifyFile program cfgs f = some (p', c', e)) :
    p' = if e = false ∧ pyEndsWith f ".spv" = true then some f else program :=
  classifyFile_program program cfgs f p' c' e h

/-- Witness for the amended C4 at the filename `in.spv`: role-matched, yet
promoted to program candidate. -/
theorem c4_program_candidate_witness :
    classifyFile none [] "in.spv" =
      some (some "in.spv", [(0, [some "in.spv", none, none])], false) ∧
    (some "in.spv" : Option String) =
      if false = false ∧ pyEndsWith "in.spv" ".spv" = true then some "in.spv"
      else (none : Option String) :=
  ⟨by decide, c4_program_candidate none [] "in.spv" (some "in.spv")
    [(0, [some "in.spv", none, none])] false (by decide)⟩

/-- Counterexample to C5: with files `out.txt`, `out0.txt`, `a.spv` in that
order, the second file collides with the first on slot (0, out); the
first-seen file is retained and the collision reported (error flag), but the
remaining file `a.spv` is never classified — the directory's file loop is
aborted, leaving no program file even though `a.spv` ends in `.spv`. -/
theorem c5_counterexample :
    groupFiles ["out.txt", "out0.txt", "a.spv"] =
      some (none, [(0, [none, some "out.txt", none])], true) ∧
    pyEndsWith "a.spv" ".spv" = true ∧
    groupFiles ["out.txt", "out0.txt", "a.spv"] ≠
      some (some "a.spv", [(0, [none, some "out.txt", none])], true) := by
  refine ⟨by decide, by decide, ?_⟩
  decide

/-- Claim C5 as amended: a collision is reported (error flag set) with the
first-seen file retained, and it aborts classification of the remaining
files of that directory: the file loop stops at the colliding file, the
configurations collected so far being returned (and later executed) with the
overall run continuing. -/
theorem c5_collision_aborts_directory (program : Option String) (cfgs : Configs)
    (f : String) (rest : List String) (p' : Option String) (c' : Configs)
    (h : classifyFile program cfgs f = some (p', c', true)) :
    classifyFiles (f :: rest) program cfgs = some (p', c', true) := by
  simp only [classifyFiles, h]

/-- Witness for the amended C5: the collision on `out0.txt` makes the loop
ignore the trailing `a.spv`. -/
theorem c5_collision_aborts_directory_witness :
    classifyFile none [(0, [none, some "out.txt", none])] "out0.txt" =
      some (none, [(0, [none, some "out.txt", none])], true) ∧
    classifyFiles ["out0.txt", "a.spv"] none [(0, [none, some "out.txt", none])] =
      some (none, [(0, [none, some "out.txt", none])], true) :=
  ⟨by decide, c5_collision_aborts_directory none [(0, [none, some "out.txt", none])]
    "out0.txt" ["a.spv"] none [(0, [none, some "out.txt", none])] (by decide)⟩

/-- Claim C10: in a classification that ran to completion without a
collision abort, the program-file candidate is the last `.spv`-suffixed
filename of the listing (in order), earlier candidates being silently
overwritten — no error flag, no crash. -/
theorem c10_last_program_wins (files : List String) (p0 : Option String)
    (cfgs : Configs) (p' : Option String) (c' : Configs)
    (h : classifyFiles files p0 cfgs = some (p', c', false)) :
    p' = match (files.filter (fun f => pyEndsWith f ".spv")).getLast? with
         | some x => some x
         | none => p0 := by
  induction files generalizing p0 cfgs with
  | nil =>
    simp only [classifyFiles, Option.some.injEq, Prod.mk.injEq] at h
    simp [← h.1]
  | cons f rest ih =>
    rw [classifyFiles] at h
    cases hc : classifyFile p0 cfgs f with
    | none => rw [hc] at h; exact Option.noConfusion h
    | some r =>
      obtain ⟨p1, c1, e1⟩ := r
      rw [hc] at h
      cases e1 with
      | true =>
        simp only [Option.some.injEq, Prod.mk.injEq] at h
        exact absurd h.2.2 (by decide)
      | false =>
        have hp1 : p1 = if pyEndsWith f ".spv" = true then some f else p0 := by
          have := classifyFile_program p0 cfgs f p1 c1 false hc
          simpa using this
        have hrec := ih p1 c1 h
        by_cases hq : pyEndsWith f ".spv" = true
        · have hfe : List.filter (fun g => pyEndsWith g ".spv") (f :: rest)
              = f :: List.filter (fun g => pyEndsWith g ".spv") rest := by
            simp [List.filter_cons, hq]
          rw [hfe, List.getLast?_cons]
          cases hgl : (rest.filter (fun g => pyEndsWith g ".spv")).getLast? with
          | none =>
            rw [hgl] at hrec
            have hp' : p' = p1 := hrec
            show p' = some f
            rw [hp', hp1, if_pos hq]
          | some x =>
            rw [hgl] at hrec
            have hp' : p' = some x := hrec
            show p' = some x
            exact hp'
        · have hq2 : pyEndsWith f ".spv" = false := by simpa using hq
          have hfe : List.filter (fun g => pyEndsWith g ".spv") (f :: rest)
              = List.filter (fun g => pyEndsWith g ".spv") rest := by
            simp [List.filter_cons, hq2]
          rw [hfe]
          rw [hp1, if_neg hq] at hrec
          exact hrec

/-- Witness for C10 at a directory listing two program candidates: the
later `b.spv` wins. -/
theorem c10_last_program_wins_witness :
    classifyFiles ["a.spv", "b.spv"] none [] = some (some "b.spv", [], false) ∧
    (some "b.spv" : Option String) =
      match ((["a.spv", "b.spv"].filter (fun f => pyEndsWith f ".spv"))).getLast? with
      | some x => some x
      | none => (none : Option String) :=
  ⟨by decide, c10_last_program_wins ["a.spv", "b.spv"] none [] (some "b.spv") [] (by decide)⟩

end SpirvRun
